import Mathlib

/-!
Verification of the Legal-Tool retrieval-and-ranking pipeline.

This file shallowly embeds the core of the repository in Lean 4:

* `app/services/pdf_processor.py`   — chunker (`_split_text_with_page`, `process_pdf`)
* `app/services/vector_store.py`    — FAISS-backed vector store (`initialize_index`,
  `add_chunks`, `search`)
* `app/services/llm_analyzer.py`    — LLM extraction wrapper (`analyze_chunks`)
* `app/services/post_processor.py`  — reconciler/ranker (`process_and_rank`,
  `_find_best_matching_chunk`)
* `app/utils/helpers.py`            — layered JSON recovery (`parse_json_response`)
* `app/services/pipeline.py`        — orchestrator (`analyze_document`)

Modelling conventions:
* Python strings are modelled as `List Char` (`Str` below); `str.strip()` is
  `strip`, `str.lower()` is `lowerStr`.
* Python floats are modelled as rationals (`ℚ`); every numeric value appearing
  in the claims is exactly representable.  Non-finite floats appear only as
  FAISS distances and are modelled by the inductive `PyFloat`.
* External collaborators (the `rapidfuzz` ratio, the embedding model, the FAISS
  ANN engine, Python's `json.loads` and `re.findall`, the LLM backend, the
  content hash) are modelled as explicit function parameters, so every theorem
  quantifies over their behaviour; hypotheses state exactly the contract the
  spec assigns to them.
* Fallible code returns `Except String` (an uncaught Python exception is an
  `.error`); recovered exceptions are `Option`.
-/

/-- Python strings modelled as lists of characters. -/
abbrev Str : Type := List Char

/-- Python `str.lower()` (ASCII case folding suffices for the texts involved). -/
def lowerStr (s : Str) : Str := s.map Char.toLower

/-- Python `str.strip()`: drop leading and trailing whitespace. -/
def strip (s : Str) : Str :=
  ((s.dropWhile Char.isWhitespace).reverse.dropWhile Char.isWhitespace).reverse

/-- A list none of whose characters is whitespace is untouched by `dropWhile`. -/
theorem dropWhile_ws_eq_self (s : Str) (h : ∀ c ∈ s, c.isWhitespace = false) :
    s.dropWhile Char.isWhitespace = s := by
  cases s with
  | nil => rfl
  | cons c t =>
    have hc : c.isWhitespace = false := h c (List.mem_cons_self c t)
    simp [List.dropWhile, hc]

/-- A whitespace-free list is untouched by `strip`. -/
theorem strip_eq_self (s : Str) (h : ∀ c ∈ s, c.isWhitespace = false) :
    strip s = s := by
  unfold strip
  rw [dropWhile_ws_eq_self s h,
      dropWhile_ws_eq_self s.reverse (fun c hc => h c (List.mem_reverse.mp hc)),
      List.reverse_reverse]

/-- Stance enum from `app/models/schemas.py`. -/
inductive Stance where
  | plaintiff | defendant | amicus | inFavor | against | neutral | unknown
deriving DecidableEq

/-- ArgumentCategory enum from `app/models/schemas.py`. -/
inductive ArgumentCategory where
  | statutory | regulatory | constitutional | case_law | procedural | policy | other
deriving DecidableEq

/-- Chunk metadata dict built by `PDFProcessor._split_text_with_page`. -/
structure ChunkMeta where
  chunk_id : Str
  page_number : Nat
  document_id : Str
  total_pages : Nat
  chunk_index : Nat
deriving DecidableEq

/-- A chunk dict: `{'text': ..., 'metadata': {...}}`. -/
structure Chunk where
  text : Str
  metadata : ChunkMeta
deriving DecidableEq

/-- `ExtractedPoint` pydantic model (`app/models/schemas.py`).  Optional fields
are `Option`; `importance_score` is required. -/
structure ExtractedPoint where
  summary : Str
  importance : Option Str := none
  importance_score : ℚ
  stance : Stance := Stance.neutral
  supporting_quote : Option Str := none
  legal_concepts : List Str := []
  page_start : Option Nat := none
  page_end : Option Nat := none
  line_start : Option Int := none
  line_end : Option Int := none
  category : Option ArgumentCategory := none
  retrieval_score : Option ℚ := none
  combined_score : Option ℚ := none
deriving DecidableEq

/-- `FinalKeyPoint` as actually constructed by `PostProcessor.process_and_rank`:
every field is assigned there, `supporting_quote` always receives the chosen
quote string and `combined_score` is always set. -/
structure FinalKeyPoint where
  summary : Str
  importance : Option Str
  importance_score : ℚ
  stance : Stance
  supporting_quote : Str
  legal_concepts : List Str
  page_start : Option Nat
  page_end : Option Nat
  line_start : Option Int
  line_end : Option Int
  category : Option ArgumentCategory
  retrieval_score : ℚ
  combined_score : ℚ
  final_rank : Nat
deriving DecidableEq

/-- Python `str(n)` for a natural number (used in chunk ids). -/
def natStr (n : Nat) : Str := Nat.toDigits 10 n

/-- Loop body of `PDFProcessor._split_text_with_page` (pdf_processor.py lines
44-67).  The Python `while start < len(text)` loop is embedded with explicit
fuel; `split_text_with_page` supplies `text.length + 1` fuel, which is enough
whenever `chunk_overlap < chunk_size` because `start` strictly increases each
iteration.  `start = end - overlap if end < len(text) else end`. -/
def splitLoop (chunk_size chunk_overlap : Nat) (text : Str) (page_number : Nat)
    (doc_id : Str) (total_pages : Nat) : Nat → Nat → Nat → List Chunk
  | 0, _, _ => []
  | fuel + 1, start, chunk_index =>
    if start < text.length then
      let stop := start + chunk_size
      let chunk_text := (text.drop start).take chunk_size
      let next_start := if stop < text.length then stop - chunk_overlap else stop
      if strip chunk_text ≠ [] then
        { text := strip chunk_text,
          metadata :=
            { chunk_id := doc_id ++ "_page".data ++ natStr page_number
                ++ "_chunk".data ++ natStr chunk_index,
              page_number := page_number,
              document_id := doc_id,
              total_pages := total_pages,
              chunk_index := chunk_index } }
          :: splitLoop chunk_size chunk_overlap text page_number doc_id total_pages
              fuel next_start (chunk_index + 1)
      else
        splitLoop chunk_size chunk_overlap text page_number doc_id total_pages
          fuel next_start chunk_index
    else []

/-- `PDFProcessor._split_text_with_page`: sliding-window chunking of one page. -/
def split_text_with_page (chunk_size chunk_overlap : Nat) (text : Str)
    (page_number : Nat) (doc_id : Str) (total_pages : Nat) : List Chunk :=
  splitLoop chunk_size chunk_overlap text page_number doc_id total_pages
    (text.length + 1) 0 0

/-- `PDFProcessor.process_pdf`: iterate `pdfplumber` pages (modelled by the
already-extracted page texts), keep pages whose text is non-empty after
stripping, chunk each, and return all chunks plus the page count. -/
def process_pdf (chunk_size chunk_overlap : Nat) (pages : List Str)
    (doc_id : Str) : List Chunk × Nat :=
  let total_pages := pages.length
  let chunks := (pages.enum.map (fun pt =>
    if pt.2 ≠ [] ∧ strip pt.2 ≠ [] then
      split_text_with_page chunk_size chunk_overlap pt.2 (pt.1 + 1) doc_id total_pages
    else [])).flatten
  (chunks, total_pages)

/-- When the scan position has reached the end of the page text the loop stops,
whatever fuel remains. -/
theorem splitLoop_eq_nil (cs co : Nat) (text : Str) (pn : Nat) (did : Str)
    (tp : Nat) (fuel start idx : Nat) (h : ¬ start < text.length) :
    splitLoop cs co text pn did tp fuel start idx = [] := by
  cases fuel <;> simp [splitLoop, h]

/-- One iteration of the chunking loop: the window `text[start : start+cs]` is
emitted (stripped) when non-blank, dropped when blank, and the scan moves to
`start + cs - co` unless the window reached the end of the text, in which case
it moves to `start + cs`. -/
theorem splitLoop_step (cs co : Nat) (text : Str) (pn : Nat) (did : Str)
    (tp : Nat) (fuel start idx : Nat) (h : start < text.length) :
    splitLoop cs co text pn did tp (fuel + 1) start idx =
      if strip ((text.drop start).take cs) = [] then
        splitLoop cs co text pn did tp fuel
          (if start + cs < text.length then start + cs - co else start + cs) idx
      else
        { text := strip ((text.drop start).take cs),
          metadata :=
            { chunk_id := did ++ "_page".data ++ natStr pn
                ++ "_chunk".data ++ natStr idx,
              page_number := pn, document_id := did, total_pages := tp,
              chunk_index := idx } }
          :: splitLoop cs co text pn did tp fuel
              (if start + cs < text.length then start + cs - co else start + cs)
              (idx + 1) := by
  simp only [splitLoop, if_pos h]
  by_cases hb : strip ((text.drop start).take cs) = [] <;> simp [hb]

/-- Any window of a whitespace-free page text is whitespace-free. -/
theorem window_noWs (text : Str) (h : ∀ c ∈ text, c.isWhitespace = false)
    (a b : Nat) : ∀ c ∈ (text.drop a).take b, c.isWhitespace = false :=
  fun c hc =>
    h c (((List.take_sublist b (text.drop a)).trans (List.drop_sublist a text)).subset hc)

/-- Stripping a window of a whitespace-free page text is the identity. -/
theorem strip_window (text : Str) (h : ∀ c ∈ text, c.isWhitespace = false)
    (a b : Nat) : strip ((text.drop a).take b) = (text.drop a).take b :=
  strip_eq_self _ (window_noWs text h a b)

/-- The chunk indices produced by the loop starting at index `idx` are the
contiguous range starting at `idx`. -/
theorem splitLoop_map_chunk_index (cs co : Nat) (text : Str) (pn : Nat)
    (did : Str) (tp : Nat) :
    ∀ fuel start idx,
      (splitLoop cs co text pn did tp fuel start idx).map
          (fun c => c.metadata.chunk_index)
        = List.range' idx (splitLoop cs co text pn did tp fuel start idx).length := by
  intro fuel
  induction fuel with
  | zero => intro start idx; simp [splitLoop]
  | succ n ih =>
    intro start idx
    by_cases h : start < text.length
    · rw [splitLoop_step cs co text pn did tp n start idx h]
      by_cases hb : strip ((text.drop start).take cs) = []
      · simp only [if_pos hb]; exact ih _ _
      · simp only [if_neg hb, List.map_cons, List.length_cons, List.range'_succ]
        rw [ih]
    · rw [splitLoop_eq_nil cs co text pn did tp _ start idx h]; simp

/-- C7: within each page the chunker assigns `chunk_index` contiguously as
0,1,2,… with no gaps: the indices of the produced chunks are exactly
`range (number of chunks)`; moreover at every non-blank (after stripping)
window exactly one chunk carrying the current index is emitted and the index
increments, while a blank window is dropped without incrementing it. -/
theorem chunker_chunk_index_contiguous (cs co : Nat) (text : Str) (pn : Nat)
    (did : Str) (tp : Nat) :
    ((split_text_with_page cs co text pn did tp).map (fun c => c.metadata.chunk_index)
        = List.range (split_text_with_page cs co text pn did tp).length)
    ∧ (∀ fuel start idx, start < text.length →
        strip ((text.drop start).take cs) = [] →
        splitLoop cs co text pn did tp (fuel + 1) start idx =
          splitLoop cs co text pn did tp fuel
            (if start + cs < text.length then start + cs - co else start + cs) idx)
    ∧ (∀ fuel start idx, start < text.length →
        strip ((text.drop start).take cs) ≠ [] →
        ∃ c rest, splitLoop cs co text pn did tp (fuel + 1) start idx = c :: rest
          ∧ c.metadata.chunk_index = idx
          ∧ c.text = strip ((text.drop start).take cs)
          ∧ c.metadata.page_number = pn
          ∧ rest = splitLoop cs co text pn did tp fuel
              (if start + cs < text.length then start + cs - co else start + cs)
              (idx + 1)) := by
  refine ⟨?_, ?_, ?_⟩
  · rw [List.range_eq_range']
    exact splitLoop_map_chunk_index cs co text pn did tp _ 0 0
  · intro fuel start idx h hb
    rw [splitLoop_step cs co text pn did tp fuel start idx h, if_pos hb]
  · intro fuel start idx h hb
    rw [splitLoop_step cs co text pn did tp fuel start idx h, if_neg hb]
    exact ⟨_, _, rfl, rfl, rfl, rfl, rfl⟩

/-- Witness for `chunker_chunk_index_contiguous`: page text "  ab" with
chunk size 2 and no overlap; the first window is blank and is dropped, the
second becomes chunk 0. -/
theorem chunker_chunk_index_contiguous_witness :
    (((split_text_with_page 2 0 "  ab".data 1 [] 1).map
        (fun c => c.metadata.chunk_index))
      = List.range (split_text_with_page 2 0 "  ab".data 1 [] 1).length)
    ∧ (splitLoop 2 0 "  ab".data 1 [] 1 (3 + 1) 0 0 =
        splitLoop 2 0 "  ab".data 1 [] 1 3
          (if 0 + 2 < ("  ab".data : Str).length then 0 + 2 - 0 else 0 + 2) 0)
    ∧ (∃ c rest, splitLoop 2 0 "  ab".data 1 [] 1 (3 + 1) 2 0 = c :: rest
        ∧ c.metadata.chunk_index = 0
        ∧ c.text = strip ((("  ab".data : Str).drop 2).take 2)
        ∧ c.metadata.page_number = 1
        ∧ rest = splitLoop 2 0 "  ab".data 1 [] 1 3
            (if 2 + 2 < ("  ab".data : Str).length then 2 + 2 - 0 else 2 + 2) 1) := by
  have h := chunker_chunk_index_contiguous 2 0 "  ab".data 1 [] 1
  exact ⟨h.1, h.2.1 3 0 0 (by decide) (by decide), h.2.2 3 2 0 (by decide) (by decide)⟩

/-- C4: with `chunkSize = 1500` and `overlap = 200` the chunker scans a page
with a sliding window whose next start is `previousEnd - overlap` (the final
window advancing by the remainder): a whitespace-free page of 3000 characters
yields exactly 3 chunks, the windows starting at offsets 0, 1300 and 2600 (the
last window having length 400), and a whitespace-free page of 500 characters
yields exactly one chunk holding the whole page. -/
theorem chunker_window_offsets :
    (∀ (text : Str) (pn : Nat) (did : Str) (tp : Nat),
      text.length = 3000 → (∀ c ∈ text, c.isWhitespace = false) →
      (split_text_with_page 1500 200 text pn did tp).map
          (fun c => (c.text, c.metadata.chunk_index))
        = [(text.take 1500, 0), ((text.drop 1300).take 1500, 1), (text.drop 2600, 2)])
    ∧ (∀ (text : Str) (pn : Nat) (did : Str) (tp : Nat),
      text.length = 500 → (∀ c ∈ text, c.isWhitespace = false) →
      (split_text_with_page 1500 200 text pn did tp).map
          (fun c => (c.text, c.metadata.chunk_index))
        = [(text, 0)]) := by
  constructor
  · intro text pn did tp hl hw
    have hs : ∀ a b : Nat, strip ((text.drop a).take b) = (text.drop a).take b :=
      strip_window text hw
    have hne : ∀ a b : Nat, a < 3000 → 0 < b →
        strip ((text.drop a).take b) ≠ [] := by
      intro a b ha hb
      rw [hs]
      apply List.ne_nil_of_length_pos
      rw [List.length_take, List.length_drop, hl]
      omega
    have hst : ∀ b : Nat, strip (text.take b) = text.take b := fun b =>
      strip_eq_self _ (fun c hc => hw c ((List.take_sublist b text).subset hc))
    have hsd : ∀ a : Nat, strip (text.drop a) = text.drop a := fun a =>
      strip_eq_self _ (fun c hc => hw c ((List.drop_sublist a text).subset hc))
    unfold split_text_with_page
    rw [hl]
    rw [show (3000 : Nat) + 1 = ((2998 + 1) + 1) + 1 by norm_num]
    rw [splitLoop_step 1500 200 text pn did tp ((2998 + 1) + 1) 0 0 (by omega),
        if_neg (hne 0 1500 (by omega) (by omega))]
    rw [show ((if 0 + 1500 < text.length then 0 + 1500 - 200 else 0 + 1500) : Nat)
        = 1300 by rw [hl]; norm_num]
    rw [splitLoop_step 1500 200 text pn did tp (2998 + 1) 1300 (0 + 1) (by omega),
        if_neg (hne 1300 1500 (by omega) (by omega))]
    rw [show ((if 1300 + 1500 < text.length then 1300 + 1500 - 200 else 1300 + 1500) : Nat)
        = 2600 by rw [hl]; norm_num]
    rw [splitLoop_step 1500 200 text pn did tp 2998 2600 (0 + 1 + 1) (by omega),
        if_neg (hne 2600 1500 (by omega) (by omega))]
    rw [show ((if 2600 + 1500 < text.length then 2600 + 1500 - 200 else 2600 + 1500) : Nat)
        = 4100 by rw [hl]; norm_num]
    rw [splitLoop_eq_nil 1500 200 text pn did tp 2998 4100 (0 + 1 + 1 + 1)
        (by omega)]
    have h3 : (text.drop 2600).take 1500 = text.drop 2600 :=
      List.take_of_length_le (by rw [List.length_drop, hl]; omega)
    simp [List.drop_zero, h3, hs, hst, hsd]
  · intro text pn did tp hl hw
    have h1 : List.take 1500 text = text := List.take_of_length_le (by omega)
    unfold split_text_with_page
    rw [hl]
    rw [splitLoop_step 1500 200 text pn did tp 500 0 0 (by omega)]
    rw [if_neg (by
      rw [List.drop_zero, h1, strip_eq_self text hw]
      apply List.ne_nil_of_length_pos
      omega)]
    rw [show ((if 0 + 1500 < text.length then 0 + 1500 - 200 else 0 + 1500) : Nat)
        = 1500 by rw [hl]; norm_num]
    rw [splitLoop_eq_nil 1500 200 text pn did tp 500 1500 (0 + 1) (by omega)]
    simp [List.drop_zero, h1, strip_eq_self text hw]

set_option maxRecDepth 8000 in
/-- Witness for `chunker_window_offsets`: the two scenarios instantiated with
the all-letter pages `replicate 3000 'a'` and `replicate 500 'b'`. -/
theorem chunker_window_offsets_witness :
    ((split_text_with_page 1500 200 (List.replicate 3000 'a') 1 [] 2).map
        (fun c => (c.text, c.metadata.chunk_index))
      = [(List.replicate 1500 'a', 0), (List.replicate 1500 'a', 1),
         (List.replicate 400 'a', 2)])
    ∧ ((split_text_with_page 1500 200 (List.replicate 500 'b') 2 [] 2).map
        (fun c => (c.text, c.metadata.chunk_index))
      = [(List.replicate 500 'b', 0)]) := by
  constructor
  · have h := chunker_window_offsets.1 (List.replicate 3000 'a') 1 [] 2
      (by rw [List.length_replicate])
      (by intro c hc; rw [List.eq_of_mem_replicate hc]; decide)
    rw [h]
    simp only [List.take_replicate, List.drop_replicate, Nat.min_def]
    norm_num
  · have h := chunker_window_offsets.2 (List.replicate 500 'b') 2 [] 2
      (by rw [List.length_replicate])
      (by intro c hc; rw [List.eq_of_mem_replicate hc]; decide)
    rw [h]

/-- Loop body of the best-match scan in
`PostProcessor._find_best_matching_chunk` (post_processor.py lines 96-102):
`score = fuzz.token_set_ratio(quote.lower(), chunk_text.lower()) / 100.0`, and
the best chunk is replaced only on a strictly greater score.  `ratio` is the
external `rapidfuzz.fuzz.token_set_ratio` collaborator. -/
def bestStep (ratio : Str → Str → ℚ) (quote : Str)
    (acc : Option Chunk × ℚ) (chunk : Chunk) : Option Chunk × ℚ :=
  let score := ratio (lowerStr quote) (lowerStr chunk.text) / 100
  if acc.2 < score then (some chunk, score) else acc

/-- `PostProcessor._find_best_matching_chunk` (post_processor.py lines 76-106).
Python truthiness: `if not quote or not chunks` is empty-string / empty-list,
`if expected_page:` is falsy for `None` and for `0`. -/
def _find_best_matching_chunk (ratio : Str → Str → ℚ) (quote : Str)
    (chunks : List Chunk) (expected_page : Option Nat) : Option Chunk × ℚ :=
  if quote = [] ∨ chunks = [] then (none, 0)
  else
    let candidate_chunks :=
      match expected_page with
      | some p =>
        if p ≠ 0 then
          let filtered := chunks.filter (fun c : Chunk => c.metadata.page_number == p)
          if filtered = [] then chunks else filtered
        else chunks
      | none => chunks
    candidate_chunks.foldl (bestStep ratio quote) (none, 0)

/-- Per-point body of `PostProcessor.process_and_rank` (post_processor.py lines
18-60): Python `x or 0.5` replaces both `None` and `0.0` by the default,
`point.supporting_quote or point.summary` replaces both `None` and the empty
string by the summary, and a found best chunk overwrites `page_start`. -/
def processPoint (ratio : Str → Str → ℚ) (chunks : List Chunk)
    (point : ExtractedPoint) : FinalKeyPoint :=
  let retrieval_score : ℚ :=
    match point.retrieval_score with
    | some r => if r = 0 then 1/2 else r
    | none => 1/2
  let importance_score : ℚ :=
    if point.importance_score = 0 then 1/2 else point.importance_score
  let quote : Str :=
    match point.supporting_quote with
    | some s => if s = [] then point.summary else s
    | none => point.summary
  let bm := _find_best_matching_chunk ratio quote chunks point.page_start
  let page_start : Option Nat :=
    match bm.1 with
    | some c => some c.metadata.page_number
    | none => point.page_start
  let combined_score : ℚ :=
    (1/2) * importance_score + (3/10) * retrieval_score + (1/5) * bm.2
  { summary := point.summary,
    importance := point.importance,
    importance_score := importance_score,
    stance := point.stance,
    supporting_quote := quote,
    legal_concepts := point.legal_concepts,
    page_start := page_start,
    page_end := point.page_end,
    line_start := point.line_start,
    line_end := point.line_end,
    category := point.category,
    retrieval_score := retrieval_score,
    combined_score := combined_score,
    final_rank := 1 }

/-- The sort order used by `final_points.sort(key=lambda x: x.combined_score,
reverse=True)`: `a` may stand before `b` when its combined score is at least
`b`'s. -/
def rankRel (a b : FinalKeyPoint) : Prop :=
  b.combined_score ≤ a.combined_score

instance rankRelDecidable : DecidableRel rankRel := fun a b =>
  inferInstanceAs (Decidable (b.combined_score ≤ a.combined_score))

instance rankRelTotal : IsTotal FinalKeyPoint rankRel :=
  ⟨fun a b => le_total b.combined_score a.combined_score⟩

instance rankRelTrans : IsTrans FinalKeyPoint rankRel :=
  ⟨fun _ _ _ hab hbc => le_trans hbc hab⟩

/-- `for i, point in enumerate(final_points, 1): point.final_rank = i`
(post_processor.py lines 69-70). -/
def assignRanks : Nat → List FinalKeyPoint → List FinalKeyPoint
  | _, [] => []
  | i, p :: ps => { p with final_rank := i } :: assignRanks (i + 1) ps

/-- `PostProcessor.process_and_rank` (post_processor.py lines 13-73): process
every point, sort by combined score descending (Python's `list.sort` is a
stable sort; the unique stable sort for this preorder is insertion sort with
`rankRel`), truncate to `top_k`, then assign ranks `1..N`. -/
def process_and_rank (ratio : Str → Str → ℚ) (top_k : Nat)
    (extracted_points : List ExtractedPoint) (chunks : List Chunk) :
    List FinalKeyPoint :=
  let final_points := extracted_points.map (processPoint ratio chunks)
  let sorted := List.insertionSort rankRel final_points
  assignRanks 1 (sorted.take top_k)

/-- Assigning ranks preserves the list length. -/
theorem assignRanks_length : ∀ (i : Nat) (l : List FinalKeyPoint),
    (assignRanks i l).length = l.length := by
  intro i l
  induction l generalizing i with
  | nil => rfl
  | cons p ps ih => simp [assignRanks, ih]

/-- The ranks assigned are the contiguous range starting at `i`. -/
theorem assignRanks_map_rank : ∀ (i : Nat) (l : List FinalKeyPoint),
    (assignRanks i l).map (fun p => p.final_rank) = List.range' i l.length := by
  intro i l
  induction l generalizing i with
  | nil => rfl
  | cons p ps ih => simp [assignRanks, List.range'_succ, ih]

/-- Assigning ranks does not change combined scores. -/
theorem assignRanks_map_score : ∀ (i : Nat) (l : List FinalKeyPoint),
    (assignRanks i l).map (fun p => p.combined_score)
      = l.map (fun p => p.combined_score) := by
  intro i l
  induction l generalizing i with
  | nil => rfl
  | cons p ps ih => simp [assignRanks, ih]

/-- Overwriting `final_rank` with the value it already holds is the identity. -/
theorem setRank_eq_self (p : FinalKeyPoint) (h : p.final_rank = 1) :
    ({ p with final_rank := 1 } : FinalKeyPoint) = p := by
  cases p
  simp only at h
  rw [h]

/-- On a list whose points all carry the initial rank 1, resetting the rank to
1 undoes `assignRanks`. -/
theorem assignRanks_reset : ∀ (i : Nat) (l : List FinalKeyPoint),
    (∀ p ∈ l, p.final_rank = 1) →
    (assignRanks i l).map (fun p => ({ p with final_rank := 1 } : FinalKeyPoint)) = l := by
  intro i l
  induction l generalizing i with
  | nil => intro _; rfl
  | cons p ps ih =>
    intro h
    simp only [assignRanks, List.map_cons]
    rw [ih (i + 1) (fun q hq => h q (List.mem_cons_of_mem p hq))]
    have : ({ p with final_rank := 1 } : FinalKeyPoint) = p :=
      setRank_eq_self p (h p (List.mem_cons_self p ps))
    rw [this]

/-- Filtering by an exact combined score commutes with an ordered insertion:
the elements an insertion skips over all have strictly larger score. -/
theorem filter_orderedInsert (s : ℚ) (x : FinalKeyPoint)
    (l : List FinalKeyPoint) :
    (List.orderedInsert rankRel x l).filter (fun p => p.combined_score = s)
      = (x :: l).filter (fun p => p.combined_score = s) := by
  induction l with
  | nil => rfl
  | cons y ys ih =>
    simp only [List.orderedInsert]
    by_cases h : rankRel x y
    · rw [if_pos h]
    · rw [if_neg h]
      have hxy : x.combined_score < y.combined_score := by
        have := not_le.mp (fun hle => h hle)
        exact this
      by_cases px : x.combined_score = s
      · have py : ¬ (y.combined_score = s) := by
          rw [← px]
          exact hxy.ne'
        simp only [List.filter_cons, px, py, if_true, if_false, decide_True,
          decide_False, ih]
        simp [List.filter_cons, px, py]
      · simp only [List.filter_cons, ih]
        simp [List.filter_cons, px]

/-- Filtering by an exact combined score commutes with the stable sort:
equal-score points keep their relative input order. -/
theorem filter_insertionSort (s : ℚ) (l : List FinalKeyPoint) :
    (List.insertionSort rankRel l).filter (fun p => p.combined_score = s)
      = l.filter (fun p => p.combined_score = s) := by
  induction l with
  | nil => rfl
  | cons x xs ih =>
    simp only [List.insertionSort]
    rw [filter_orderedInsert]
    simp only [List.filter_cons, ih]

/-- C3: `process_and_rank` outputs `min top_k (number of candidates)` points
ordered by descending combined score; equal-score points retain their relative
input order (the filtered-by-score subsequence of the output is a prefix of the
corresponding subsequence of the processed input); the assigned `final_rank`
values are exactly `1..N` in sorted order, each used once. -/
theorem process_and_rank_ranked (ratio : Str → Str → ℚ) (top_k : Nat)
    (extracted_points : List ExtractedPoint) (chunks : List Chunk) :
    (process_and_rank ratio top_k extracted_points chunks).length
        = min top_k extracted_points.length
    ∧ List.Pairwise (fun a b : FinalKeyPoint => b.combined_score ≤ a.combined_score)
        (process_and_rank ratio top_k extracted_points chunks)
    ∧ (process_and_rank ratio top_k extracted_points chunks).map (fun p => p.final_rank)
        = List.range' 1 (process_and_rank ratio top_k extracted_points chunks).length
    ∧ ∀ s : ℚ, ∃ rest,
        (extracted_points.map (processPoint ratio chunks)).filter
            (fun p => p.combined_score = s)
          = ((process_and_rank ratio top_k extracted_points chunks).map
                (fun p => ({ p with final_rank := 1 } : FinalKeyPoint))).filter
              (fun p => p.combined_score = s) ++ rest := by
  have hdef : process_and_rank ratio top_k extracted_points chunks
      = assignRanks 1 ((List.insertionSort rankRel
          (extracted_points.map (processPoint ratio chunks))).take top_k) := rfl
  have hperm := List.perm_insertionSort rankRel
    (extracted_points.map (processPoint ratio chunks))
  have hlen : (process_and_rank ratio top_k extracted_points chunks).length
      = min top_k extracted_points.length := by
    rw [hdef, assignRanks_length, List.length_take, hperm.length_eq,
      List.length_map]
  have hrank1 : ∀ p ∈ (List.insertionSort rankRel
      (extracted_points.map (processPoint ratio chunks))).take top_k,
      p.final_rank = 1 := by
    intro p hp
    have hp2 : p ∈ extracted_points.map (processPoint ratio chunks) :=
      hperm.mem_iff.mp ((List.take_sublist _ _).subset hp)
    obtain ⟨q, _, rfl⟩ := List.mem_map.mp hp2
    rfl
  refine ⟨hlen, ?_, ?_, ?_⟩
  · have hsorted : List.Pairwise rankRel
        ((List.insertionSort rankRel
          (extracted_points.map (processPoint ratio chunks))).take top_k) :=
      List.Pairwise.sublist (List.take_sublist _ _)
        (List.sorted_insertionSort rankRel _)
    have h1 : List.Pairwise (fun x y : ℚ => y ≤ x)
        (((List.insertionSort rankRel
          (extracted_points.map (processPoint ratio chunks))).take top_k).map
            (fun p => p.combined_score)) :=
      List.pairwise_map.mpr hsorted
    have h2 := assignRanks_map_score 1
      ((List.insertionSort rankRel
        (extracted_points.map (processPoint ratio chunks))).take top_k)
    rw [hdef]
    exact List.pairwise_map.mp (h2 ▸ h1)
  · rw [hdef, assignRanks_map_rank, assignRanks_length]
  · intro s
    refine ⟨((List.insertionSort rankRel
        (extracted_points.map (processPoint ratio chunks))).drop top_k).filter
          (fun p => p.combined_score = s), ?_⟩
    rw [hdef, assignRanks_reset 1 _ hrank1]
    rw [← filter_insertionSort s (extracted_points.map (processPoint ratio chunks))]
    rw [← List.filter_append, List.take_append_drop]

/-- C2 (amended): `process_and_rank` fuses the scores as
`combined = 0.5·importance + 0.3·retrieval + 0.2·matchConfidence`, but the
Python `or`-defaults replace an `importance_score`/`retrieval_score` by 0.5
not only when the field is missing but also when it is exactly 0. -/
theorem processPoint_combined_score (ratio : Str → Str → ℚ)
    (chunks : List Chunk) (point : ExtractedPoint) :
    (processPoint ratio chunks point).combined_score
      = (1/2) * (if point.importance_score = 0 then 1/2 else point.importance_score)
        + (3/10) * (match point.retrieval_score with
            | some r => if r = 0 then 1/2 else r
            | none => (1/2 : ℚ))
        + (1/5) * (_find_best_matching_chunk ratio
            (match point.supporting_quote with
              | some s => if s = [] then point.summary else s
              | none => point.summary)
            chunks point.page_start).2 := by
  rfl

/-- C2 counterexample: a point carrying `importance_score = 0.0` and
`retrieval_score = 1.0`, with no chunks.  The claim predicts
`0.5·0 + 0.3·1 + 0.2·0 = 0.3` (scores used as given when present), but the
code computes `0.55`: Python's `importance_score or 0.5` replaces the present
value `0.0` by the default. -/
theorem processPoint_zero_score_counterexample :
    ((processPoint (fun _ _ => 0) []
        { summary := "claim summary".data, importance_score := 0,
          retrieval_score := some 1 }).combined_score = 11/20)
    ∧ ¬ ((processPoint (fun _ _ => 0) []
        { summary := "claim summary".data, importance_score := 0,
          retrieval_score := some 1 }).combined_score
          = (1/2) * 0 + (3/10) * 1 + (1/5) * 0) := by
  constructor
  · simp only [processPoint, _find_best_matching_chunk]
    norm_num
  · simp only [processPoint, _find_best_matching_chunk]
    norm_num

/-- C9: when a point's `supporting_quote` is absent (`None` or the empty
string), the produced `FinalKeyPoint` carries the point's `summary` as its
`supporting_quote`; hence the output quote is never empty when the summary is
non-empty. -/
theorem processPoint_quote_fallback (ratio : Str → Str → ℚ)
    (chunks : List Chunk) (point : ExtractedPoint) :
    ((point.supporting_quote = none ∨ point.supporting_quote = some []) →
      (processPoint ratio chunks point).supporting_quote = point.summary)
    ∧ (point.summary ≠ [] →
      (processPoint ratio chunks point).supporting_quote ≠ []) := by
  constructor
  · rintro (h | h) <;> simp [processPoint, h]
  · intro hs
    rcases hq : point.supporting_quote with _ | q
    · simpa [processPoint, hq] using hs
    · by_cases hq2 : q = []
      · simpa [processPoint, hq, hq2] using hs
      · simp [processPoint, hq, hq2]

/-- Witness for `processPoint_quote_fallback`: a quote-less point with a
non-empty summary. -/
theorem processPoint_quote_fallback_witness :
    ((processPoint (fun _ _ => 0) []
        { summary := "hello".data, importance_score := 1 }).supporting_quote
      = "hello".data)
    ∧ (processPoint (fun _ _ => 0) []
        { summary := "hello".data, importance_score := 1 }).supporting_quote ≠ [] := by
  constructor
  · exact (processPoint_quote_fallback (fun _ _ => 0) []
      { summary := "hello".data, importance_score := 1 }).1 (Or.inl rfl)
  · exact (processPoint_quote_fallback (fun _ _ => 0) []
      { summary := "hello".data, importance_score := 1 }).2 (by decide)

/-- The best-match fold never moves off an accumulator that already dominates
every remaining score (the update requires a strictly greater score). -/
theorem bestStep_foldl_stable (ratio : Str → Str → ℚ) (quote : Str) :
    ∀ (l : List Chunk) (acc : Option Chunk × ℚ),
      (∀ y ∈ l, ratio (lowerStr quote) (lowerStr y.text) / 100 ≤ acc.2) →
      l.foldl (bestStep ratio quote) acc = acc := by
  intro l
  induction l with
  | nil => intro acc _; rfl
  | cons x xs ih =>
    intro acc h
    simp only [List.foldl_cons]
    have hx : ratio (lowerStr quote) (lowerStr x.text) / 100 ≤ acc.2 :=
      h x (List.mem_cons_self x xs)
    have hstep : bestStep ratio quote acc x = acc := by
      simp [bestStep, not_lt.mpr hx]
    rw [hstep]
    exact ih acc (fun y hy => h y (List.mem_cons_of_mem x hy))

/-- If one chunk of the candidate list scores exactly 1 and every other chunk
scores strictly below 1, the best-match fold returns that chunk with
confidence 1, from any accumulator still below 1. -/
theorem bestStep_foldl_unique (ratio : Str → Str → ℚ) (quote : Str)
    (C : Chunk)
    (hCscore : ratio (lowerStr quote) (lowerStr C.text) / 100 = 1) :
    ∀ (l : List Chunk), C ∈ l →
      (∀ D ∈ l, D ≠ C → ratio (lowerStr quote) (lowerStr D.text) / 100 < 1) →
      ∀ acc : Option Chunk × ℚ, acc.2 < 1 →
        l.foldl (bestStep ratio quote) acc = (some C, 1) := by
  intro l
  induction l with
  | nil => intro hC _ _ _; cases hC
  | cons x xs ih =>
    intro hC hothers acc hacc
    simp only [List.foldl_cons]
    by_cases hx : x = C
    · subst hx
      have hstep : bestStep ratio quote acc x = (some x, 1) := by
        simp [bestStep, hCscore, hacc]
      rw [hstep]
      apply bestStep_foldl_stable
      intro y hy
      by_cases hyC : y = x
      · subst hyC; exact le_of_eq hCscore
      · exact le_of_lt (hothers y (List.mem_cons_of_mem x hy) hyC)
    · have hxin : C ∈ xs := by
        rcases List.mem_cons.mp hC with h | h
        · exact absurd h.symm hx
        · exact h
      have hxscore : ratio (lowerStr quote) (lowerStr x.text) / 100 < 1 :=
        hothers x (List.mem_cons_self x xs) hx
      have hacc2 : (bestStep ratio quote acc x).2 < 1 := by
        simp only [bestStep]
        split
        · exact hxscore
        · exact hacc
      exact ih hxin (fun D hD hDC => hothers D (List.mem_cons_of_mem x hD) hDC)
        _ hacc2

/-- C1 (amended): if a point's `supporting_quote` exactly equals the text of a
chunk `C`, its reported `page_start` names a page on which no chunk is
recorded (so the candidate pool falls back to the full chunk set), the ratio
collaborator scores identical strings at 100 and scores every chunk other than
`C` strictly below 100, then reconciliation returns `C` with match confidence
1.0 and overwrites the point's `page_start` with `C`'s true page number. -/
theorem find_best_exact_quote (ratio : Str → Str → ℚ)
    (hrefl : ∀ s : Str, ratio s s = 100)
    (chunks : List Chunk) (C : Chunk) (point : ExtractedPoint) (pg : Nat)
    (hC : C ∈ chunks)
    (hquote : point.supporting_quote = some C.text)
    (hne : C.text ≠ [])
    (hpage : point.page_start = some pg)
    (hwrong : ∀ D ∈ chunks, D.metadata.page_number ≠ pg)
    (huniq : ∀ D ∈ chunks, D ≠ C →
      ratio (lowerStr C.text) (lowerStr D.text) < 100) :
    _find_best_matching_chunk ratio C.text chunks point.page_start = (some C, 1)
    ∧ (processPoint ratio chunks point).page_start
        = some C.metadata.page_number := by
  have hchne : chunks ≠ [] := List.ne_nil_of_mem hC
  have hfilter : chunks.filter (fun c : Chunk => c.metadata.page_number == pg) = [] := by
    rw [List.filter_eq_nil_iff]
    intro c hc
    simpa using hwrong c hc
  have hfold : chunks.foldl (bestStep ratio C.text) (none, 0) = (some C, 1) := by
    apply bestStep_foldl_unique ratio C.text C
    · rw [hrefl]; norm_num
    · exact hC
    · intro D hD hDC
      rw [div_lt_one (by norm_num)]
      exact huniq D hD hDC
    · norm_num
  have hfb : _find_best_matching_chunk ratio C.text chunks point.page_start
      = (some C, 1) := by
    rw [hpage]
    unfold _find_best_matching_chunk
    rw [if_neg (by simp [hne, hchne])]
    by_cases hp : pg = 0
    · simp only [hp, ne_eq, not_true_eq_false, if_false]
      exact hfold
    · simp only [ne_eq, hp, not_false_eq_true, if_true, hfilter, if_pos rfl]
      exact hfold
  refine ⟨hfb, ?_⟩
  have hq : (match point.supporting_quote with
      | some s => if s = [] then point.summary else s
      | none => point.summary) = C.text := by
    rw [hquote]
    simp [hne]
  simp only [processPoint, hq, hfb]

/-- A ratio oracle used for concrete instances: it satisfies the token-set
contract on the texts involved (identical strings score 100; the texts paired
below have disjoint token sets, which `rapidfuzz` likewise scores strictly
below 100). -/
def tokenEqRatio : Str → Str → ℚ := fun a b => if a = b then 100 else 0

/-- A page-1 chunk whose text shares no token with the quote below. -/
def chA : Chunk :=
  { text := "alpha beta".data,
    metadata := { chunk_id := "doc_page1_chunk0".data, page_number := 1,
                  document_id := "doc".data, total_pages := 2, chunk_index := 0 } }

/-- The page-2 chunk whose text the point quotes verbatim. -/
def chC : Chunk :=
  { text := "gamma delta".data,
    metadata := { chunk_id := "doc_page2_chunk0".data, page_number := 2,
                  document_id := "doc".data, total_pages := 2, chunk_index := 0 } }

/-- A point quoting `chC`'s text verbatim but reporting `page_start = 1`. -/
def ptC1 : ExtractedPoint :=
  { summary := "gamma delta".data, importance_score := 1,
    supporting_quote := some "gamma delta".data, page_start := some 1,
    retrieval_score := some 1 }

/-- C1 counterexample: the point `ptC1` quotes chunk `chC` (page 2) verbatim
while wrongly reporting `page_start = 1`; because chunk `chA` is recorded on
page 1, the candidate pool is `[chA]` and excludes `chC` entirely, so
reconciliation finds no match: the match confidence is 0 (not 1.0), no best
chunk is returned, `page_start` stays 1 instead of being overwritten to 2, and
the combined score is 0.8 instead of the 1.0 the claim entails. -/
theorem find_best_wrong_page_counterexample :
    (_find_best_matching_chunk tokenEqRatio "gamma delta".data [chA, chC] (some 1)
        = (none, 0))
    ∧ (processPoint tokenEqRatio [chA, chC] ptC1).page_start = some 1
    ∧ chC.text = "gamma delta".data
    ∧ chC.metadata.page_number = 2
    ∧ (processPoint tokenEqRatio [chA, chC] ptC1).combined_score ≠ 1 := by
  have hlowq : lowerStr "gamma delta".data = "gamma delta".data := by decide
  have hlowA : lowerStr chA.text = "alpha beta".data := by decide
  have hr : tokenEqRatio "gamma delta".data "alpha beta".data = 0 := by decide
  have hfilter : ([chA, chC] : List Chunk).filter
      (fun c : Chunk => c.metadata.page_number == 1) = [chA] := by decide
  have hfold : ([chA] : List Chunk).foldl
      (bestStep tokenEqRatio "gamma delta".data) (none, 0) = (none, 0) := by
    simp only [List.foldl_cons, List.foldl_nil, bestStep, hlowq, hlowA, hr]
    norm_num
  have hfb : _find_best_matching_chunk tokenEqRatio "gamma delta".data
      [chA, chC] (some 1) = (none, 0) := by
    unfold _find_best_matching_chunk
    rw [if_neg (by decide)]
    show (if (1 : Nat) ≠ 0 then
        (if ([chA, chC] : List Chunk).filter
            (fun c : Chunk => c.metadata.page_number == 1) = []
          then ([chA, chC] : List Chunk)
          else ([chA, chC] : List Chunk).filter
            (fun c : Chunk => c.metadata.page_number == 1))
        else ([chA, chC] : List Chunk)).foldl
        (bestStep tokenEqRatio "gamma delta".data) (none, 0) = (none, 0)
    rw [if_pos (show (1 : Nat) ≠ 0 by decide), hfilter,
      if_neg (show ¬ ([chA] : List Chunk) = [] by decide)]
    exact hfold
  have hquote : (match ptC1.supporting_quote with
      | some s => if s = [] then ptC1.summary else s
      | none => ptC1.summary) = "gamma delta".data := by decide
  refine ⟨hfb, ?_, by decide, by decide, ?_⟩
  · show (match (_find_best_matching_chunk tokenEqRatio
        (match ptC1.supporting_quote with
          | some s => if s = [] then ptC1.summary else s
          | none => ptC1.summary) [chA, chC] ptC1.page_start).1 with
      | some c => some c.metadata.page_number
      | none => ptC1.page_start) = some 1
    rw [hquote]
    have hfb2 : _find_best_matching_chunk tokenEqRatio "gamma delta".data
        [chA, chC] ptC1.page_start = (none, 0) := hfb
    rw [hfb2]
    rfl
  · show ¬ ((1/2 : ℚ) * (if ptC1.importance_score = 0 then 1/2 else ptC1.importance_score)
      + (3/10) * (match ptC1.retrieval_score with
          | some r => if r = 0 then 1/2 else r
          | none => (1/2 : ℚ))
      + (1/5) * (_find_best_matching_chunk tokenEqRatio
          (match ptC1.supporting_quote with
            | some s => if s = [] then ptC1.summary else s
            | none => ptC1.summary) [chA, chC] ptC1.page_start).2 = 1)
    rw [hquote]
    have hfb2 : _find_best_matching_chunk tokenEqRatio "gamma delta".data
        [chA, chC] ptC1.page_start = (none, 0) := hfb
    rw [hfb2]
    norm_num [ptC1]

/-- A point quoting `chC`'s text verbatim and reporting `page_start = 1`, used
with a chunk set holding no page-1 chunk. -/
def ptC1w : ExtractedPoint :=
  { summary := "gamma delta".data, importance_score := 1,
    supporting_quote := some chC.text, page_start := some 1,
    retrieval_score := some 1 }

/-- Witness for `find_best_exact_quote`: the single-chunk set `[chC]` records
no page-1 chunk, so the pool falls back to the full set; the verbatim quote
matches `chC` with confidence 1 and `page_start` is overwritten to page 2. -/
theorem find_best_exact_quote_witness :
    _find_best_matching_chunk tokenEqRatio chC.text [chC] ptC1w.page_start
        = (some chC, 1)
    ∧ (processPoint tokenEqRatio [chC] ptC1w).page_start
        = some chC.metadata.page_number := by
  exact find_best_exact_quote tokenEqRatio
    (fun s => by simp [tokenEqRatio]) [chC] chC ptC1w 1
    (by decide) (by decide) (by decide) (by decide)
    (by decide) (by decide)

/-- A Python float as delivered by FAISS: possibly `nan` or `±inf`. -/
inductive PyFloat where
  | nan
  | inf
  | ninf
  | fin (q : ℚ)

/-- Distance sanitisation and distance-to-similarity transform from
`VectorStore.search` (vector_store.py lines 72-83): non-finite distances are
replaced by the sentinel `1e6`, negative distances are clamped to 0, then
`similarity = 1/(1+d)` clamped into `[0,1]`. -/
def distToScore (dist : PyFloat) : ℚ :=
  let d : ℚ :=
    match dist with
    | PyFloat.fin q => q
    | _ => 1000000
  let d := max d 0
  let retrieval_score := 1 / (1 + d)
  max 0 (min retrieval_score 1)

/-- The state of a `faiss.IndexHNSWFlat` instance (external engine): its
construction parameters and the vectors added so far. -/
structure HNSWIndex where
  d : Int
  m : Nat
  efConstruction : Nat
  vectors : List (List ℚ)
deriving DecidableEq

/-- The fields of a `VectorStore` instance (vector_store.py lines 9-17). -/
structure VectorStoreState where
  dimension : Int
  m : Nat
  ef_construction : Nat
  index : Option HNSWIndex
  chunks : List Chunk
  doc_id : Option Str
deriving DecidableEq

/-- `VectorStore.initialize_index` (vector_store.py lines 19-33): when an
index already exists and `force_new` is false the call logs a warning and
returns leaving all state untouched; otherwise a fresh empty index is created
and the chunk list cleared.  The external `faiss.IndexHNSWFlat` constructor is
modelled by the contract the spec assigns to it: it fails (wrapped into a
`RuntimeError`) exactly when the dimension is ≤ 0. -/
def initialize_index (st : VectorStoreState) (doc_id : Str)
    (force_new : Bool) : Except String VectorStoreState :=
  if st.index.isSome ∧ force_new = false then .ok st
  else if st.dimension ≤ 0 then .error "FAISS initialization failed"
  else .ok { st with
    index := some { d := st.dimension, m := st.m,
                    efConstruction := st.ef_construction, vectors := [] },
    doc_id := some doc_id,
    chunks := [] }

/-- `VectorStore.add_chunks` (vector_store.py lines 35-50): fails when no
index is initialized; otherwise encodes the chunk texts (the embedding
collaborator's answer is the `encodeRes` parameter; its failure propagates),
appends the vectors to the index and the chunks to the parallel list. -/
def add_chunks (st : VectorStoreState)
    (encodeRes : Except String (List (List ℚ))) (chunks : List Chunk) :
    Except String VectorStoreState :=
  match st.index with
  | none => .error "Index not initialized. Call initialize_index() first."
  | some idx =>
    match encodeRes with
    | .error e => .error e
    | .ok embeddings => .ok { st with
        index := some { idx with vectors := idx.vectors ++ embeddings },
        chunks := st.chunks ++ chunks }

/-- `VectorStore.search` (vector_store.py lines 52-92): empty result (not an
error) when the index is missing or no chunks are stored; otherwise the query
is encoded (`queryEnc`; a failure is wrapped and re-raised) and the ANN engine
is asked for `k = min(top_k, len(chunks))` neighbours (`ann`, the external
FAISS engine, returns `(distance, index)` pairs); out-of-range indices are
skipped and each kept pair is mapped to `(chunk, distToScore distance)`. -/
def search (st : VectorStoreState) (queryEnc : Except String (List (List ℚ)))
    (ann : List (List ℚ) → Nat → Nat → List (PyFloat × Int)) (top_k ef_search : Nat) :
    Except String (List (Chunk × ℚ)) :=
  if st.index = none ∨ st.chunks = [] then .ok []
  else
    match queryEnc with
    | .error e => .error ("Vector search failed: " ++ e)
    | .ok qv =>
      let k := min top_k st.chunks.length
      .ok ((ann qv k ef_search).filterMap (fun p : PyFloat × Int =>
        if (0 : Int) ≤ p.2 ∧ p.2 < Int.ofNat st.chunks.length then
          match st.chunks.get? p.2.toNat with
          | some chunk => some (chunk, distToScore p.1)
          | none => none
        else none))

/-- A `filterMap` whose function succeeds on every element preserves length. -/
theorem length_filterMap_all {α β : Type} (f : α → Option β) :
    ∀ l : List α, (∀ x ∈ l, (f x).isSome) → (l.filterMap f).length = l.length := by
  intro l
  induction l with
  | nil => intro _; rfl
  | cons x xs ih =>
    intro h
    have hx := h x (List.mem_cons_self x xs)
    rcases hv : f x with _ | v
    · rw [hv] at hx; cases hx
    · rw [List.filterMap_cons, hv]
      simp only [List.length_cons]
      rw [ih (fun y hy => h y (List.mem_cons_of_mem x hy))]

/-- C5 (amended): `initialize_index` creates a fresh empty index, clears the
chunk list and records the new document id whenever no index exists or
`force_new` is true, and fails for dimension ≤ 0 in exactly those situations;
but when an index already exists and `force_new` is false (its default) the
call returns with the prior index, chunk list and document id untouched — the
discard is **not** unconditional. -/
theorem initialize_index_spec (st : VectorStoreState) (doc_id : Str) :
    (∀ force_new : Bool, (st.index = none ∨ force_new = true) →
      0 < st.dimension →
      ∃ st' idx, initialize_index st doc_id force_new = .ok st'
        ∧ st'.index = some idx ∧ idx.vectors = []
        ∧ st'.chunks = [] ∧ st'.doc_id = some doc_id)
    ∧ (st.index.isSome → initialize_index st doc_id false = .ok st)
    ∧ (∀ force_new : Bool, (st.index = none ∨ force_new = true) →
      st.dimension ≤ 0 →
      ∃ e, initialize_index st doc_id force_new = .error e) := by
  refine ⟨?_, ?_, ?_⟩
  · intro force_new hfn hdim
    have hcond : ¬ (st.index.isSome ∧ force_new = false) := by
      rcases hfn with h | h
      · intro hc; rw [h] at hc; exact absurd hc.1 (by simp)
      · intro hc; rw [h] at hc; exact absurd hc.2 (by simp)
    refine ⟨{ st with
        index := some { d := st.dimension, m := st.m,
                        efConstruction := st.ef_construction, vectors := [] },
        doc_id := some doc_id, chunks := [] },
      { d := st.dimension, m := st.m,
        efConstruction := st.ef_construction, vectors := [] },
      ?_, rfl, rfl, rfl, rfl⟩
    unfold initialize_index
    rw [if_neg hcond, if_neg (not_le.mpr hdim)]
  · intro hsome
    unfold initialize_index
    rw [if_pos ⟨hsome, rfl⟩]
  · intro force_new hfn hdim
    have hcond : ¬ (st.index.isSome ∧ force_new = false) := by
      rcases hfn with h | h
      · intro hc; rw [h] at hc; exact absurd hc.1 (by simp)
      · intro hc; rw [h] at hc; exact absurd hc.2 (by simp)
    refine ⟨"FAISS initialization failed", ?_⟩
    unfold initialize_index
    rw [if_neg hcond, if_pos hdim]

/-- A vector store holding a live index over one chunk. -/
def vsBusy : VectorStoreState :=
  { dimension := 3, m := 32, ef_construction := 64,
    index := some { d := 3, m := 32, efConstruction := 64, vectors := [[1, 0, 0]] },
    chunks := [chA], doc_id := some "doc1".data }

/-- A vector store with no index and a non-positive dimension. -/
def vsBad : VectorStoreState :=
  { dimension := 0, m := 32, ef_construction := 64,
    index := none, chunks := [], doc_id := none }

/-- C5 counterexample: calling `initialize_index` again on a store with a live
index (with `force_new` at its default `False`) does **not** discard the prior
index and chunk list — the call returns the state unchanged, with the old
document's chunk and document id still present, contradicting the claimed
unconditional force-recreate semantics. -/
theorem initialize_index_keeps_old_counterexample :
    initialize_index vsBusy "doc2".data false = .ok vsBusy
    ∧ vsBusy.chunks = [chA]
    ∧ vsBusy.doc_id = some "doc1".data
    ∧ vsBusy.index.isSome = true := by
  exact ⟨rfl, rfl, rfl, rfl⟩

/-- Witness for `initialize_index_spec`: forced re-creation on a busy store
yields a fresh empty index; a default call on the same store is a no-op; a
store with dimension 0 fails to initialize. -/
theorem initialize_index_spec_witness :
    (∃ st' idx, initialize_index vsBusy "doc2".data true = .ok st'
      ∧ st'.index = some idx ∧ idx.vectors = []
      ∧ st'.chunks = [] ∧ st'.doc_id = some "doc2".data)
    ∧ initialize_index vsBusy "doc2".data false = .ok vsBusy
    ∧ (∃ e, initialize_index vsBad "doc3".data true = .error e) := by
  refine ⟨?_, ?_, ?_⟩
  · exact (initialize_index_spec vsBusy "doc2".data).1 true (Or.inr rfl)
      (by norm_num [vsBusy])
  · exact (initialize_index_spec vsBusy "doc2".data).2.1 rfl
  · exact (initialize_index_spec vsBad "doc3".data).2.2 true (Or.inr rfl)
      (by norm_num [vsBad])

/-- C6: a search against a store with no index or no chunks returns the empty
sequence rather than an error; against an initialized non-empty store, when
the embedding collaborator answers and the ANN engine returns
`k = min(topK, numChunksIndexed)` pairs whose indices are all in range (the
engine contract), the search succeeds with exactly
`min(topK, numChunksIndexed)` scored chunks. -/
theorem search_length_spec (st : VectorStoreState)
    (queryEnc : Except String (List (List ℚ)))
    (ann : List (List ℚ) → Nat → Nat → List (PyFloat × Int)) (top_k ef_search : Nat) :
    ((st.index = none ∨ st.chunks = []) →
      search st queryEnc ann top_k ef_search = .ok [])
    ∧ (∀ qv, st.index ≠ none → st.chunks ≠ [] → queryEnc = .ok qv →
      (ann qv (min top_k st.chunks.length) ef_search).length
          = min top_k st.chunks.length →
      (∀ p ∈ ann qv (min top_k st.chunks.length) ef_search,
        (0 : Int) ≤ p.2 ∧ p.2 < Int.ofNat st.chunks.length) →
      ∃ results, search st queryEnc ann top_k ef_search = .ok results
        ∧ results.length = min top_k st.chunks.length) := by
  constructor
  · intro h
    unfold search
    rw [if_pos h]
  · intro qv hidx hchunks hq hlen hrange
    refine ⟨(ann qv (min top_k st.chunks.length) ef_search).filterMap
        (fun p : PyFloat × Int =>
          if (0 : Int) ≤ p.2 ∧ p.2 < Int.ofNat st.chunks.length then
            match st.chunks.get? p.2.toNat with
            | some chunk => some (chunk, distToScore p.1)
            | none => none
          else none), ?_, ?_⟩
    · unfold search
      rw [if_neg (by intro h; rcases h with h | h; exact hidx h; exact hchunks h), hq]
    · rw [length_filterMap_all _ _ ?_, hlen]
      intro p hp
      have hr := hrange p hp
      have hlt : p.2.toNat < st.chunks.length := by
        have h0 := hr.1
        have h2 : p.2 < (st.chunks.length : Int) := hr.2
        omega
      rw [if_pos hr, List.get?_eq_get hlt]
      rfl

/-- Witness for `search_length_spec`: an uninitialized store answers `[]`;
a one-chunk store queried with `topK = 5` returns exactly
`min 5 1 = 1` scored chunk when the engine returns one valid pair. -/
theorem search_length_spec_witness :
    search vsBad (.ok []) (fun _ _ _ => []) 5 64 = .ok []
    ∧ ∃ results, search vsBusy (.ok [[1, 0, 0]])
        (fun _ _ _ => [(PyFloat.fin 0, 0)]) 5 64 = .ok results
        ∧ results.length = min 5 vsBusy.chunks.length := by
  constructor
  · exact (search_length_spec vsBad (.ok []) (fun _ _ _ => []) 5 64).1 (Or.inl rfl)
  · exact (search_length_spec vsBusy (.ok [[1, 0, 0]])
      (fun _ _ _ => [(PyFloat.fin 0, 0)]) 5 64).2 [[1, 0, 0]]
      (by decide) (by decide) rfl (by decide) (by decide)

/-- First successful result of applying `f` along a list; models Python's
`for ...: if result is not None: return result` loops in helpers.py. -/
def firstSome {α β : Type} (f : α → Option β) : List α → Option β
  | [] => none
  | x :: xs =>
    match f x with
    | some v => some v
    | none => firstSome f xs

/-- `_try_direct_parse` (helpers.py lines 34-39): plain `json.loads`; the
external parser `jl` answers `none` where Python would raise. -/
def _try_direct_parse {J : Type} (jl : Str → Option J) (text : Str) : Option J :=
  jl text

/-- The four fence patterns of `_try_code_block` (helpers.py lines 56-61),
passed verbatim to the external `re.findall`. -/
def codeBlockPatterns : List Str :=
  [ "```json\\s*(\x7b.*?\x7d)\\s*```".data,
    "```\\s*(\x7b.*?\x7d)\\s*```".data,
    "```json\\s*(\\[.*?\\])\\s*```".data,
    "```\\s*(\\[.*?\\])\\s*```".data ]

/-- `_try_code_block` (helpers.py lines 42-71): for each pattern in order, for
each captured match in order (the external `re.findall` collaborator), return
the first successful parse. -/
def _try_code_block {J : Type} (jl : Str → Option J)
    (findall : Str → Str → List Str) (text : Str) : Option J :=
  firstSome jl ((codeBlockPatterns.map (fun pat => findall pat text)).flatten)

/-- Python `str.rfind`: index of the last occurrence of a character. -/
def rfindIdx (t : Str) (c : Char) : Option Nat :=
  match t.reverse.findIdx? (fun x => x = c) with
  | some i => some (t.length - 1 - i)
  | none => none

/-- One bracket-pair extraction of `_try_bracket_extract`: locate the first
opening and last closing bracket, require `end > start`, parse the slice
`text[start : end+1]`. -/
def bracketSlice {J : Type} (jl : Str → Option J) (t : Str)
    (openC closeC : Char) : Option J :=
  match t.findIdx? (fun x => x = openC), rfindIdx t closeC with
  | some s, some e => if s < e then jl ((t.drop s).take (e + 1 - s)) else none
  | _, _ => none

/-- `_try_bracket_extract` (helpers.py lines 74-96): try the object braces
first, then the array brackets. -/
def _try_bracket_extract {J : Type} (jl : Str → Option J) (text : Str) :
    Option J :=
  match bracketSlice jl text (Char.ofNat 123) (Char.ofNat 125) with
  | some v => some v
  | none => bracketSlice jl text (Char.ofNat 91) (Char.ofNat 93)

/-- The known prefixes of `_try_remove_prefix` (helpers.py lines 100-106). -/
def knownPrefixes : List Str :=
  [ "Here is the JSON:".data,
    "Here\x27s the JSON:".data,
    "JSON response:".data,
    "Response:".data,
    "Output:".data,
    "Result:".data ]

/-- `_try_remove_prefix` (helpers.py lines 99-115): for each known prefix in
order, if the (case-folded) text starts with it, try parsing the stripped
remainder; a failed parse moves on to the next prefix. -/
def _try_remove_pfx {J : Type} (jl : Str → Option J) (text : Str) : Option J :=
  firstSome (fun pre =>
    if (lowerStr pre).isPrefixOf (lowerStr text) then
      jl (strip (text.drop pre.length))
    else none) knownPrefixes

/-- `parse_json_response` (helpers.py lines 12-31): empty input answers
`None`; otherwise the four recovery strategies run in order on the stripped
text and the first success is returned.  The embedding is a total function of
the external `json.loads` and `re.findall` oracles — every Python exception is
caught inside a strategy and surfaces as `none`. -/
def parse_json_response {J : Type} (jl : Str → Option J)
    (findall : Str → Str → List Str) (response_text : Str) : Option J :=
  if response_text = [] then none
  else
    let t := strip response_text
    firstSome (fun strat => strat t)
      [ _try_direct_parse jl,
        _try_code_block jl findall,
        _try_bracket_extract jl,
        _try_remove_pfx jl ]

/-- C10: `parse_json_response` is total over its parser oracles — it returns a
parsed value or `none`, never an exception — and tries the four recovery
strategies (direct parse, fenced code block, first/last bracket extraction,
known-prefix stripping) in exactly that order, returning the first success:
the empty string answers `none`; a direct-parse success is returned as is;
each later strategy answers only when all earlier ones failed. -/
theorem parse_json_response_layered {J : Type} (jl : Str → Option J)
    (findall : Str → Str → List Str) (t : Str) :
    (parse_json_response jl findall [] = none)
    ∧ (∀ v, t ≠ [] → _try_direct_parse jl (strip t) = some v →
        parse_json_response jl findall t = some v)
    ∧ (∀ v, t ≠ [] → _try_direct_parse jl (strip t) = none →
        _try_code_block jl findall (strip t) = some v →
        parse_json_response jl findall t = some v)
    ∧ (∀ v, t ≠ [] → _try_direct_parse jl (strip t) = none →
        _try_code_block jl findall (strip t) = none →
        _try_bracket_extract jl (strip t) = some v →
        parse_json_response jl findall t = some v)
    ∧ (t ≠ [] → _try_direct_parse jl (strip t) = none →
        _try_code_block jl findall (strip t) = none →
        _try_bracket_extract jl (strip t) = none →
        parse_json_response jl findall t = _try_remove_pfx jl (strip t)) := by
  refine ⟨rfl, ?_, ?_, ?_, ?_⟩
  · intro v ht hd
    unfold parse_json_response
    rw [if_neg ht]
    simp only [firstSome, hd]
  · intro v ht hd hc
    unfold parse_json_response
    rw [if_neg ht]
    simp only [firstSome, hd, hc]
  · intro v ht hd hc hb
    unfold parse_json_response
    rw [if_neg ht]
    simp only [firstSome, hd, hc, hb]
  · intro ht hd hc hb
    unfold parse_json_response
    rw [if_neg ht]
    simp only [firstSome, hd, hc, hb]
    rcases _try_remove_pfx jl (strip t) with _ | v <;> rfl

/-- Witness for `parse_json_response_layered`: the empty input; a direct-parse
success; a fenced-block recovery (direct parse fails, the findall oracle
captures a parsable group); a bracket-extraction recovery; and a text on which
the first three strategies fail, falling through to prefix stripping. -/
theorem parse_json_response_layered_witness :
    (parse_json_response (fun s : Str => if s = "ok".data then some 7 else none)
        (fun _ _ => ([] : List Str)) [] = none)
    ∧ (parse_json_response (fun s : Str => if s = "ok".data then some 7 else none)
        (fun _ _ => ([] : List Str)) "ok".data = some 7)
    ∧ (parse_json_response (fun s : Str => if s = "ok".data then some 7 else none)
        (fun _ _ => ["ok".data]) "zz".data = some 7)
    ∧ (parse_json_response (fun s : Str => if s = "\x7b\x7d".data then some 3 else none)
        (fun _ _ => ([] : List Str)) "x\x7b\x7d".data = some 3)
    ∧ (parse_json_response (fun _ : Str => (none : Option Nat))
        (fun _ _ => ([] : List Str)) "yy".data
        = _try_remove_pfx (fun _ : Str => (none : Option Nat)) (strip "yy".data)) := by
  refine ⟨?_, ?_, ?_, ?_, ?_⟩
  · exact (parse_json_response_layered (fun s : Str => if s = "ok".data then some 7 else none)
      (fun _ _ => ([] : List Str)) []).1
  · exact (parse_json_response_layered (fun s : Str => if s = "ok".data then some 7 else none)
      (fun _ _ => ([] : List Str)) "ok".data).2.1 7 (by decide) (by decide)
  · exact (parse_json_response_layered (fun s : Str => if s = "ok".data then some 7 else none)
      (fun _ _ => ["ok".data]) "zz".data).2.2.1 7 (by decide) (by decide) (by decide)
  · exact (parse_json_response_layered (fun s : Str => if s = "\x7b\x7d".data then some 3 else none)
      (fun _ _ => ([] : List Str)) "x\x7b\x7d".data).2.2.2.1 3
      (by decide) (by decide) (by decide) (by decide)
  · exact (parse_json_response_layered (fun _ : Str => (none : Option Nat))
      (fun _ _ => ([] : List Str)) "yy".data).2.2.2.2
      (by decide) (by decide) (by decide) (by decide)

/-- `LLMAnalysisOutput` pydantic model (`app/models/schemas.py`). -/
structure LLMAnalysisOutput where
  extracted_points : List ExtractedPoint
  confidence : ℚ
deriving DecidableEq

/-- `LLMAnalyzer.analyze_chunks` (llm_analyzer.py lines 41-107): when the LLM
collaborator is unavailable (`self.llm is None`) the call falls back to zero
extracted points with confidence 0 (lines 44-47).  When it is available, the
truncated chunk list is handed to the backend; that whole path — prompt
construction, invocation, JSON recovery and per-record coercion — runs through
the external model and is modelled as the collaborator function itself. -/
def analyze_chunks (llm : Option (List (Chunk × ℚ) → LLMAnalysisOutput))
    (chunks_with_scores : List (Chunk × ℚ)) (max_chunks : Nat) :
    LLMAnalysisOutput :=
  match llm with
  | none => { extracted_points := [], confidence := 0 }
  | some invoke => invoke (chunks_with_scores.take max_chunks)

/-- The metadata dict built by `MetadataExtractor.extract_metadata`. -/
structure DocMetadata where
  document_name : Str
  total_pages : Nat
  total_chunks : Nat
  document_id : Str
deriving DecidableEq

/-- `MetadataExtractor.extract_metadata` (metadata_extractor.py): the empty
dict for an empty chunk list, else fields read off the first chunk. -/
def extract_metadata (chunks : List Chunk) (doc_name : Str) : Option DocMetadata :=
  match chunks with
  | [] => none
  | c :: _ => some
      { document_name := doc_name,
        total_pages := c.metadata.total_pages,
        total_chunks := chunks.length,
        document_id := c.metadata.document_id }

/-- The result dict assembled by `AnalysisPipeline.analyze_document`
(pipeline.py lines 117-125); the wall-clock `processing_time` is external and
not modelled. -/
structure AnalysisResult where
  document_id : Str
  document_name : Str
  total_pages : Nat
  total_chunks : Nat
  key_points : List FinalKeyPoint
  metadata : Option DocMetadata
deriving DecidableEq

/-- `AnalysisPipeline.analyze_document` (pipeline.py lines 51-132): validate
the file, hash its bytes (`hashFn`, the external sha256), chunk the extracted
page texts, extract metadata, force-recreate the index, embed and add the
chunks, retrieve with the fixed analysis query, analyze with the LLM, rank,
and assemble the result.  Any stage error propagates (`raise`). -/
def analyze_document
    (hashFn : List Nat → Str)
    (encode : List Str → Except String (List (List ℚ)))
    (ann : List (List ℚ) → Nat → Nat → List (PyFloat × Int))
    (llm : Option (List (Chunk × ℚ) → LLMAnalysisOutput))
    (ratio : Str → Str → ℚ)
    (chunk_size chunk_overlap top_k_retrieval ef_search final_output_count : Nat)
    (st0 : VectorStoreState)
    (file_exists : Bool) (content : List Nat) (pages : List Str)
    (filename : Str) : Except String AnalysisResult :=
  if file_exists = false then .error "Uploaded PDF not found on server."
  else if content = [] then .error "Empty PDF file."
  else
    let doc_id := hashFn content
    let pc := process_pdf chunk_size chunk_overlap pages doc_id
    if pc.1 = [] then .error "No text extracted from PDF."
    else
      let metadata := extract_metadata pc.1 filename
      match initialize_index st0 doc_id true with
      | .error e => .error e
      | .ok st1 =>
        match add_chunks st1 (encode (pc.1.map (fun c => c.text))) pc.1 with
        | .error e => .error e
        | .ok st2 =>
          match search st2
              (encode ["Extract key legal arguments from this document".data])
              ann top_k_retrieval ef_search with
          | .error e => .error e
          | .ok retrieved_chunks =>
            let llm_output := analyze_chunks llm retrieved_chunks 30
            let final_points := process_and_rank ratio final_output_count
              llm_output.extracted_points pc.1
            .ok { document_id := doc_id,
                  document_name := filename,
                  total_pages := pc.2,
                  total_chunks := pc.1.length,
                  key_points := final_points,
                  metadata := metadata }

/-- C8: with the LLM collaborator entirely unavailable, `analyze_chunks`
returns zero extracted points with confidence 0, and a run on a valid document
(non-empty bytes, at least one chunk, working embedding collaborator and a
positive index dimension) completes successfully with `key_points = []` and no
exception. -/
theorem llm_unavailable_fallback
    (hashFn : List Nat → Str)
    (encode : List Str → Except String (List (List ℚ)))
    (ann : List (List ℚ) → Nat → Nat → List (PyFloat × Int))
    (ratio : Str → Str → ℚ)
    (cs co topk efs foc : Nat)
    (st0 : VectorStoreState)
    (content : List Nat) (pages : List Str) (filename : Str) :
    (∀ cws mc, analyze_chunks none cws mc
        = { extracted_points := [], confidence := 0 })
    ∧ (content ≠ [] →
      (process_pdf cs co pages (hashFn content)).1 ≠ [] →
      0 < st0.dimension →
      (∃ vs, encode ((process_pdf cs co pages (hashFn content)).1.map
          (fun c => c.text)) = .ok vs) →
      (∃ qv, encode ["Extract key legal arguments from this document".data]
          = .ok qv) →
      ∃ r, analyze_document hashFn encode ann none ratio cs co topk efs foc st0
            true content pages filename = .ok r
        ∧ r.key_points = []) := by
  constructor
  · intro cws mc; rfl
  · intro hcontent hchunks hdim hembs hq
    obtain ⟨vs, hvs⟩ := hembs
    obtain ⟨qv, hqv⟩ := hq
    have h1 : initialize_index st0 (hashFn content) true
        = .ok { st0 with
            index := some { d := st0.dimension, m := st0.m,
                            efConstruction := st0.ef_construction, vectors := [] },
            doc_id := some (hashFn content), chunks := [] } := by
      unfold initialize_index
      rw [if_neg (by simp), if_neg (not_le.mpr hdim)]
    have hfinal : analyze_document hashFn encode ann none ratio cs co topk efs
        foc st0 true content pages filename
        = .ok { document_id := hashFn content,
                document_name := filename,
                total_pages := (process_pdf cs co pages (hashFn content)).2,
                total_chunks := (process_pdf cs co pages (hashFn content)).1.length,
                key_points := [],
                metadata := extract_metadata
                  (process_pdf cs co pages (hashFn content)).1 filename } := by
      simp only [analyze_document, h1, hvs, hqv, hcontent, hchunks,
        add_chunks, search, analyze_chunks, process_and_rank,
        List.map_nil, List.insertionSort, List.take_nil, assignRanks,
        ne_eq, ite_false, ite_true, if_neg, if_pos]
      simp [hchunks]
    exact ⟨_, hfinal, rfl⟩

/-- Witness for `llm_unavailable_fallback`: a one-page document with working
hash/embedding collaborators, a positive-dimension store and no LLM backend
runs to a successful result with an empty key-point list. -/
theorem llm_unavailable_fallback_witness :
    (analyze_chunks none [] 30 = { extracted_points := [], confidence := 0 })
    ∧ ∃ r, analyze_document (fun _ => "doc".data) (fun _ => .ok [])
        (fun _ _ _ => []) none (fun _ _ => 0) 1500 200 60 64 10 vsBusy
        true [1] ["hello world legal text".data] "brief.pdf".data = .ok r
      ∧ r.key_points = [] := by
  constructor
  · exact (llm_unavailable_fallback (fun _ => "doc".data) (fun _ => .ok [])
      (fun _ _ _ => []) (fun _ _ => 0) 1500 200 60 64 10 vsBusy [1]
      ["hello world legal text".data] "brief.pdf".data).1 [] 30
  · exact (llm_unavailable_fallback (fun _ => "doc".data) (fun _ => .ok [])
      (fun _ _ _ => []) (fun _ _ => 0) 1500 200 60 64 10 vsBusy [1]
      ["hello world legal text".data] "brief.pdf".data).2
      (by decide) (by decide) (by norm_num [vsBusy]) ⟨[], rfl⟩ ⟨[], rfl⟩
